import Mathlib

/-!
Verification of the keyword/boolean-query pipeline in `search_agent.py`
(KrazyCloud/Query-model).

The Python source is shallowly embedded: pure helpers become Lean
functions over `String` / `List Char`; the two outbound network calls
(the keyword lookup service and the generative model) are abstracted as
explicit inputs, so each stage is a total function of its inputs.
-/

/-- Python `sep.join(xs)`. -/
def joinSep (sep : String) : List String → String
  | [] => ""
  | [x] => x
  | x :: y :: xs => x ++ sep ++ joinSep sep (y :: xs)

/-- Python `s.upper()` for the (ASCII) mode strings used by the composer. -/
def pyUpper (s : String) : String := ⟨s.data.map Char.toUpper⟩

/-- The f-string `f'"{k}"'` used at lines 116/118 of the source. -/
def quoteKw (k : String) : String := "\"" ++ k ++ "\""

/-- `itertools.combinations(keywords, 2)`: all index-ordered pairs
`(keywords[i], keywords[j])` with `i < j`, enumerated in combinatorial
order of the input sequence. -/
def combos2 : List String → List (String × String)
  | [] => []
  | k :: rest => rest.map (fun k2 => (k, k2)) ++ combos2 rest

/-- Return shape of `build_boolean_queries`: OR/AND (and the empty-input
case) yield a single string, COMBO yields a list of pair strings. -/
inductive BooleanQuery where
  | single : String → BooleanQuery
  | multi : List String → BooleanQuery
deriving DecidableEq, Repr

/-- `build_boolean_queries(keywords, mode)` from `src/search_agent.py`
lines 112-121.  An unrecognized mode falls off the end of the Python
function, returning `None`; that is modelled as `Option.none`. -/
def build_boolean_queries (keywords : List String) (mode : String) : Option BooleanQuery :=
  if keywords = [] then
    some (.single "")
  else if pyUpper mode = "OR" then
    some (.single (joinSep " OR " (keywords.map quoteKw)))
  else if pyUpper mode = "AND" then
    some (.single (joinSep " AND " (keywords.map quoteKw)))
  else if pyUpper mode = "COMBO" then
    some (.multi ((combos2 keywords).map (fun c => c.1 ++ " AND " ++ c.2)))
  else
    none

/-! ### Composer lemmas -/

theorem combos2_length (l : List String) :
    2 * (combos2 l).length = l.length * (l.length - 1) := by
  induction l with
  | nil => rfl
  | cons k rest ih =>
    simp only [combos2, List.length_append, List.length_map, List.length_cons]
    cases rest with
    | nil => rfl
    | cons y ys =>
      simp only [List.length_cons, Nat.add_sub_cancel] at ih ⊢
      nlinarith [ih]

/-- C1 counterexample: in COMBO mode the code joins the two keywords of a
pair *without* quoting them, so `compose(["A","B","C"], "COMBO")` is
`["A AND B", "A AND C", "B AND C"]`, not the quoted strings the claim
requires. -/
theorem c1_combo_unquoted_counterexample :
    build_boolean_queries ["A", "B", "C"] "COMBO" =
      some (.multi ["A AND B", "A AND C", "B AND C"]) ∧
    build_boolean_queries ["A", "B", "C"] "COMBO" ≠
      some (.multi ["\"A\" AND \"B\"", "\"A\" AND \"C\"", "\"B\" AND \"C\""]) := by
  constructor
  · rfl
  · decide

/-- C1 (amended): for every keyword list with at least two elements,
COMBO mode returns the ordered sequence of all n·(n−1)/2 pairs of
keywords at distinct positions, in combinatorial order of the input
sequence, where each element is the string `k1 AND k2` with the keywords
*not* individually quoted; in particular
`compose(["A","B","C"], "COMBO") = ["A AND B", "A AND C", "B AND C"]`. -/
theorem c1_combo_pairs (keywords : List String) (h : 2 ≤ keywords.length) :
    build_boolean_queries keywords "COMBO" =
      some (.multi ((combos2 keywords).map (fun c => c.1 ++ " AND " ++ c.2))) ∧
    (combos2 keywords).length = keywords.length * (keywords.length - 1) / 2 ∧
    build_boolean_queries ["A", "B", "C"] "COMBO" =
      some (.multi ["A AND B", "A AND C", "B AND C"]) := by
  refine ⟨?_, ?_, rfl⟩
  · cases keywords with
    | nil => simp at h
    | cons k rest => rfl
  · have := combos2_length keywords
    omega

theorem c1_combo_pairs_witness :
    2 ≤ (["A", "B", "C"] : List String).length ∧
    (combos2 ["A", "B", "C"]).length = 3 := by
  refine ⟨by decide, ?_⟩
  have h := c1_combo_pairs ["A", "B", "C"] (by decide)
  exact h.2.1

/-- C7: for every keyword list, OR mode joins the individually
double-quoted keywords with `" OR "`, AND mode with `" AND "`; matching
of the recognized modes is case-insensitive (`"or"` and `"and"` behave
like `"OR"` and `"AND"`), and on `["A","B"]` the two modes produce
`"A" OR "B"` and `"A" AND "B"`. -/
theorem c7_or_and_modes (keywords : List String) :
    build_boolean_queries keywords "OR" =
      some (.single (joinSep " OR " (keywords.map quoteKw))) ∧
    build_boolean_queries keywords "AND" =
      some (.single (joinSep " AND " (keywords.map quoteKw))) ∧
    build_boolean_queries keywords "or" = build_boolean_queries keywords "OR" ∧
    build_boolean_queries keywords "and" = build_boolean_queries keywords "AND" ∧
    build_boolean_queries ["A", "B"] "OR" = some (.single "\"A\" OR \"B\"") ∧
    build_boolean_queries ["A", "B"] "AND" = some (.single "\"A\" AND \"B\"") := by
  refine ⟨?_, ?_, ?_, ?_, rfl, rfl⟩ <;> cases keywords <;> rfl

/-- C8: composing an empty keyword list returns the single empty string
for every mode value, because the emptiness check precedes the mode
dispatch. -/
theorem c8_empty_keywords (mode : String) :
    build_boolean_queries [] mode = some (.single "") := rfl

/-- C9: the composer is a pure function — two invocations with the same
keyword list and the same mode string return identical outputs. -/
theorem c9_composer_deterministic (k₁ k₂ : List String) (m₁ m₂ : String)
    (hk : k₁ = k₂) (hm : m₁ = m₂) :
    build_boolean_queries k₁ m₁ = build_boolean_queries k₂ m₂ := by
  rw [hk, hm]

theorem c9_composer_deterministic_witness :
    build_boolean_queries ["A"] "OR" = build_boolean_queries ["A"] "OR" :=
  c9_composer_deterministic ["A"] ["A"] "OR" "OR" rfl rfl

/-- C10: COMBO mode on a single-element list returns the empty *list*
(`.multi []`), which is distinct from the single empty string returned
for an empty keyword list. -/
theorem c10_single_keyword_combo (k : String) :
    build_boolean_queries [k] "COMBO" = some (.multi []) ∧
    build_boolean_queries [] "COMBO" = some (.single "") ∧
    (BooleanQuery.multi []) ≠ (BooleanQuery.single "") := by
  exact ⟨rfl, rfl, by decide⟩

/-! ### Script classifier (`is_ascii`, src lines 30-45) -/

/-- The nine Indic Unicode block checks of `indian_script_patterns`
(Devanagari, Tamil, Telugu, Kannada, Malayalam, Gujarati, Gurmukhi,
Bengali/Assamese, Odia), applied to a single character. -/
def inIndicRange (c : Char) : Bool :=
  decide (0x0900 ≤ c.toNat ∧ c.toNat ≤ 0x097F) ||
  decide (0x0B80 ≤ c.toNat ∧ c.toNat ≤ 0x0BFF) ||
  decide (0x0C00 ≤ c.toNat ∧ c.toNat ≤ 0x0C7F) ||
  decide (0x0C80 ≤ c.toNat ∧ c.toNat ≤ 0x0CFF) ||
  decide (0x0D00 ≤ c.toNat ∧ c.toNat ≤ 0x0D7F) ||
  decide (0x0A80 ≤ c.toNat ∧ c.toNat ≤ 0x0AFF) ||
  decide (0x0A00 ≤ c.toNat ∧ c.toNat ≤ 0x0A7F) ||
  decide (0x0980 ≤ c.toNat ∧ c.toNat ≤ 0x09FF) ||
  decide (0x0B00 ≤ c.toNat ∧ c.toNat ≤ 0x0B7F)

/-- `is_ascii(s)` from the source: `False` when any character lies in an
Indic block, otherwise `all(ord(c) < 128 for c in s if c.isalpha())`.
Python's Unicode `str.isalpha` is an external primitive of the runtime,
so it is taken as an explicit parameter `alpha`; every theorem below
holds for an arbitrary choice of `alpha`. -/
def is_ascii (alpha : Char → Bool) (s : List Char) : Bool :=
  if s.any inIndicRange then false
  else s.all (fun c => !alpha c || decide (c.toNat < 128))

/-- The two prompt variants selectable at line 98 of the source
(`english_prompt if is_ascii(topic) else indian_prompt`). -/
inductive ScriptClass where
  | ASCII_COMPATIBLE : ScriptClass
  | INDIC : ScriptClass
deriving DecidableEq, Repr

/-- The classification induced by `is_ascii` at line 98. -/
def classify (alpha : Char → Bool) (s : List Char) : ScriptClass :=
  if is_ascii alpha s then .ASCII_COMPATIBLE else .INDIC

theorem is_ascii_of_small (alpha : Char → Bool) (s : List Char)
    (h : ∀ c ∈ s, c.toNat < 128) : is_ascii alpha s = true := by
  have h1 : s.any inIndicRange = false := by
    simp only [List.any_eq_false]
    intro c hc
    have hcc := h c hc
    simp only [inIndicRange, Bool.or_eq_true, decide_eq_true_eq]
    omega
  unfold is_ascii
  rw [h1]
  simp only [Bool.false_eq_true, if_false, List.all_eq_true]
  intro c hc
  rw [decide_eq_true (h c hc), Bool.or_true]

theorem all_filter_alpha (alpha : Char → Bool) (s : List Char) :
    s.all (fun c => !alpha c || decide (c.toNat < 128)) =
    (s.filter alpha).all (fun c => !alpha c || decide (c.toNat < 128)) := by
  induction s with
  | nil => rfl
  | cons c cs ih =>
    cases hac : alpha c with
    | true => simp only [List.all_cons, List.filter_cons, hac, if_true, ih]
    | false =>
      simp only [List.all_cons, List.filter_cons, hac, Bool.false_eq_true, if_false,
        Bool.not_false, Bool.true_or, Bool.true_and, ih]

theorem is_ascii_true_iff (alpha : Char → Bool) (s : List Char)
    (h : s.any inIndicRange = false) :
    is_ascii alpha s = true ↔ ∀ c ∈ s, alpha c = true → c.toNat < 128 := by
  unfold is_ascii
  rw [h]
  simp only [Bool.false_eq_true, if_false, List.all_eq_true]
  constructor
  · intro hall c hc ha
    have hx := hall c hc
    rw [ha] at hx
    simpa using hx
  · intro hall c hc
    cases ha : alpha c with
    | false => simp
    | true => rw [decide_eq_true (hall c hc ha), Bool.or_true]

/-- C5: the script classifier (the `is_ascii` check selecting the prompt
variant) returns INDIC whenever some character lies in one of the nine
fixed Indic Unicode blocks; otherwise it returns ASCII_COMPATIBLE
exactly when every alphabetic character has a code point below 128, and
in that case non-alphabetic characters never affect the result (the
classification of the text equals that of its alphabetic-only
restriction).  It is a total (pure, never-failing) function, for every
model `alpha` of Python's Unicode `str.isalpha`; `"Trump tariff"`
classifies ASCII_COMPATIBLE and `"जीएसटी बदलाव"` classifies INDIC for
every such model. -/
theorem c5_script_classifier (alpha : Char → Bool) (s : List Char) :
    (s.any inIndicRange = true → classify alpha s = .INDIC) ∧
    (s.any inIndicRange = false →
      (classify alpha s = .ASCII_COMPATIBLE ↔ ∀ c ∈ s, alpha c = true → c.toNat < 128)) ∧
    (s.any inIndicRange = false → classify alpha s = classify alpha (s.filter alpha)) ∧
    (∀ alph2 : Char → Bool, classify alph2 "Trump tariff".data = .ASCII_COMPATIBLE) ∧
    (∀ alph2 : Char → Bool, classify alph2 "जीएसटी बदलाव".data = .INDIC) := by
  refine ⟨?_, ?_, ?_, ?_, ?_⟩
  · intro h
    simp [classify, is_ascii, h]
  · intro h
    cases hia : is_ascii alpha s with
    | true =>
      simp only [classify, hia, if_true]
      exact ⟨fun _ => (is_ascii_true_iff alpha s h).mp hia, fun _ => trivial⟩
    | false =>
      simp only [classify, hia, Bool.false_eq_true, if_false]
      constructor
      · intro he
        exact ScriptClass.noConfusion he
      · intro hall
        have hx := (is_ascii_true_iff alpha s h).mpr hall
        rw [hia] at hx
        simp at hx
  · intro h
    have h2 : (s.filter alpha).any inIndicRange = false := by
      simp only [List.any_eq_false] at h ⊢
      intro c hc
      exact h c (List.mem_of_mem_filter hc)
    unfold classify is_ascii
    rw [h, h2]
    simp only [Bool.false_eq_true, if_false]
    rw [all_filter_alpha]
  · intro alph2
    have hx := is_ascii_of_small alph2 "Trump tariff".data (by decide)
    simp [classify, hx]
  · intro alph2
    have hany : ("जीएसटी बदलाव".data).any inIndicRange = true := by decide
    simp [classify, is_ascii, hany]

theorem c5_script_classifier_witness :
    ("जीएसटी बदलाव".data.any inIndicRange = true) ∧
    classify (fun c => c.isAlpha) "जीएसटी बदलाव".data = .INDIC :=
  ⟨by decide,
   (c5_script_classifier (fun c => c.isAlpha) "जीएसटी बदलाव".data).1 (by decide)⟩

/-! ### Keyword source adapter (`fetch_keywords_from_api`, src lines 48-64)

The regex `\b[A-Z][a-zA-Z0-9&]+\b` of line 59 is embedded by a direct
left-to-right scan with the greedy-plus-backtracking semantics of
`re.findall`: a match starts at a word boundary with an uppercase ASCII
letter, consumes the longest run of `[a-zA-Z0-9&]` characters that still
ends at a word boundary, and scanning resumes after the match. -/

/-- The character class `[a-zA-Z0-9&]`. -/
def isClassChar (c : Char) : Bool := c.isAlpha || c.isDigit || c = '&'

/-- Regex word characters `\w` = `[a-zA-Z0-9_]` (ASCII). -/
def isWordChar (c : Char) : Bool := c.isAlpha || c.isDigit || c = '_'

/-- Word-ness of an optional next character; end of input is non-word. -/
def wordB : Option Char → Bool
  | some c => isWordChar c
  | none => false

/-- `\b` between a last consumed character and the next character. -/
def boundary (a : Char) (next : Option Char) : Bool := isWordChar a != wordB next

/-- Greedy match of `[a-zA-Z0-9&]*` after the character `c`, backtracking
from the longest run until the trailing `\b` holds.  Returns the extra
consumed characters and the unconsumed remainder of the run, or `none`
when no split of the run satisfies the boundary.  `next` is the first
character after the run. -/
def grabLongest (c : Char) (run : List Char) (next : Option Char) :
    Option (List Char × List Char) :=
  match run with
  | [] => if boundary c next then some ([], []) else none
  | d :: rest =>
    match grabLongest d rest next with
    | some (p, rem) => some (d :: p, rem)
    | none => if boundary c (some d) then some ([], d :: rest) else none

/-- One left-to-right `re.findall` scan.  `prevWord` is the word-ness of
the previous character (`false` at the start of the string); `fuel`
bounds the recursion and any value above the input length is exact. -/
def findAllAux (fuel : Nat) (l : List Char) (prevWord : Bool) : List (List Char) :=
  match fuel, l with
  | 0, _ => []
  | _, [] => []
  | fuel' + 1, c :: rest =>
    if !prevWord && c.isUpper then
      match rest.takeWhile isClassChar with
      | [] => findAllAux fuel' rest (isWordChar c)
      | d :: run2 =>
        match grabLongest d run2 (rest.dropWhile isClassChar).head? with
        | some (p, rem) =>
          (c :: d :: p) ::
            findAllAux fuel' (rem ++ rest.dropWhile isClassChar) (wordB (d :: p).getLast?)
        | none => findAllAux fuel' rest (isWordChar c)
    else
      findAllAux fuel' rest (isWordChar c)

/-- `re.findall(r'\b[A-Z][a-zA-Z0-9&]+\b', s)`. -/
def findAllCap (s : String) : List String :=
  (findAllAux (s.data.length + 1) s.data false).map (fun l => ⟨l⟩)

/-- `list(dict.fromkeys(keywords))` (line 60): drop duplicates keeping
the first occurrence of each string. -/
def dedupFirstAux (seen : List String) : List String → List String
  | [] => []
  | x :: xs => if x ∈ seen then dedupFirstAux seen xs else x :: dedupFirstAux (x :: seen) xs

def dedupFirst (l : List String) : List String := dedupFirstAux [] l

/-- Observable behaviours of the lookup service, as discriminated by the
body of `fetch_keywords_from_api`: an exception anywhere in the `try`
block (transport failure, timeout, malformed/non-JSON response — all
reach the bare `except Exception`), a 404, any other non-2xx status
(`raise_for_status` throws, which the same `except` catches), or a 2xx
JSON response whose `news` field is the given string (`""` when the
field is absent or null, per `data.get("news", "")`). -/
inductive ApiOutcome where
  | transportError : ApiOutcome
  | notFound : ApiOutcome
  | httpError : ApiOutcome
  | ok : String → ApiOutcome
deriving DecidableEq, Repr

/-- `fetch_keywords_from_api` as a total function of the service's
behaviour; totality is the embedding of "this adapter never raises". -/
def fetch_keywords_from_api : ApiOutcome → List String × String
  | .transportError => ([], "")
  | .notFound => ([], "")
  | .httpError => ([], "")
  | .ok news => if news = "" then ([], "") else (dedupFirst (findAllCap news), news)

/-! ### Adapter lemmas -/

theorem dedupFirstAux_sublist (seen : List String) (l : List String) :
    List.Sublist (dedupFirstAux seen l) l := by
  induction l generalizing seen with
  | nil => exact List.Sublist.refl []
  | cons x xs ih =>
    by_cases hx : x ∈ seen
    · simp only [dedupFirstAux, if_pos hx]
      exact (ih seen).cons x
    · simp only [dedupFirstAux, if_neg hx]
      exact (ih (x :: seen)).cons₂ x

theorem dedupFirstAux_mem (seen : List String) (l : List String) (x : String) :
    x ∈ dedupFirstAux seen l ↔ x ∈ l ∧ x ∉ seen := by
  induction l generalizing seen with
  | nil => simp [dedupFirstAux]
  | cons y ys ih =>
    by_cases hy : y ∈ seen
    · simp only [dedupFirstAux, if_pos hy, ih, List.mem_cons]
      constructor
      · rintro ⟨hm, hs⟩
        exact ⟨Or.inr hm, hs⟩
      · rintro ⟨hm | hm, hs⟩
        · subst hm; exact absurd hy hs
        · exact ⟨hm, hs⟩
    · simp only [dedupFirstAux, if_neg hy, List.mem_cons, ih]
      constructor
      · rintro (hm | ⟨hm, hs⟩)
        · subst hm; exact ⟨Or.inl rfl, hy⟩
        · exact ⟨Or.inr hm, fun hx => hs (Or.inr hx)⟩
      · rintro ⟨hm | hm, hs⟩
        · subst hm; exact Or.inl rfl
        · by_cases hxy : x = y
          · subst hxy; exact Or.inl rfl
          · refine Or.inr ⟨hm, fun hx => ?_⟩
            rcases hx with h1 | h1
            · exact hxy h1
            · exact hs h1

theorem dedupFirstAux_nodup (seen : List String) (l : List String) :
    (dedupFirstAux seen l).Nodup := by
  induction l generalizing seen with
  | nil => exact List.nodup_nil
  | cons y ys ih =>
    by_cases hy : y ∈ seen
    · simp only [dedupFirstAux, if_pos hy]
      exact ih seen
    · simp only [dedupFirstAux, if_neg hy]
      refine List.Nodup.cons ?_ (ih (y :: seen))
      intro hmem
      have := (dedupFirstAux_mem (y :: seen) ys y).mp hmem
      simp at this

/-- C3: the keyword source adapter is a total function of the lookup
service's behaviour (it never raises), and an HTTP 404, a successful
response with no usable `news` content, any other non-2xx status, and
any transport failure, timeout or malformed response all yield exactly
`([], "")`. -/
theorem c3_fetch_never_raises :
    fetch_keywords_from_api .transportError = ([], "") ∧
    fetch_keywords_from_api .notFound = ([], "") ∧
    fetch_keywords_from_api .httpError = ([], "") ∧
    fetch_keywords_from_api (.ok "") = ([], "") :=
  ⟨rfl, rfl, rfl, rfl⟩

/-- C4: on a successful lookup whose `news` content is non-empty the
adapter returns the pattern matches of the content, deduplicated by
exact string match keeping the first occurrence (the result has no
duplicates, is a subsequence of the match list — hence in first-seen
order — and keeps exactly the matched strings), paired with the raw
content; content `"Modi announced Modi visits Delhi"` extracts
`["Modi", "Delhi"]`. -/
theorem c4_fetch_extract (news : String) (h : news ≠ "") :
    fetch_keywords_from_api (.ok news) = (dedupFirst (findAllCap news), news) ∧
    (dedupFirst (findAllCap news)).Nodup ∧
    List.Sublist (dedupFirst (findAllCap news)) (findAllCap news) ∧
    (∀ k, k ∈ dedupFirst (findAllCap news) ↔ k ∈ findAllCap news) ∧
    findAllCap "Modi announced Modi visits Delhi" = ["Modi", "Modi", "Delhi"] ∧
    fetch_keywords_from_api (.ok "Modi announced Modi visits Delhi") =
      (["Modi", "Delhi"], "Modi announced Modi visits Delhi") := by
  refine ⟨?_, ?_, ?_, ?_, by decide, by decide⟩
  · simp [fetch_keywords_from_api, h]
  · exact dedupFirstAux_nodup [] (findAllCap news)
  · exact dedupFirstAux_sublist [] (findAllCap news)
  · intro k
    rw [dedupFirst, dedupFirstAux_mem]
    simp

theorem c4_fetch_extract_witness :
    ("Modi announced Modi visits Delhi" : String) ≠ "" ∧
    fetch_keywords_from_api (.ok "Modi announced Modi visits Delhi") =
      (["Modi", "Delhi"], "Modi announced Modi visits Delhi") :=
  ⟨by decide,
   (c4_fetch_extract "Modi announced Modi visits Delhi" (by decide)).2.2.2.2.2⟩

/-! ### Expansion engine response parser (`expand_keywords_mistral`,
src lines 103-110)

The prompt construction and the model POST are external I/O; the
line-parsing loop over the model's multi-line `response` text is
embedded below.  Whitespace classes follow the ASCII whitespace
characters of Python's `\s` / `str.strip()`. -/

def pyIsSpace (c : Char) : Bool :=
  c = ' ' || c = '\t' || c = '\n' || c = '\r' || c = '\x0b' || c = '\x0c'

/-- Python `str.strip(chars)`: drop the matching characters from both
ends. -/
def stripBoth (p : Char → Bool) (l : List Char) : List Char :=
  ((l.dropWhile p).reverse.dropWhile p).reverse

/-- `re.sub(r"^\d+[\.\-\)\s]*", "", line)`: when the line starts with a
digit, drop the leading digits and then any run of `.`, `-`, `)` or
whitespace. -/
def stripEnum (l : List Char) : List Char :=
  match l.takeWhile Char.isDigit with
  | [] => l
  | _ :: _ =>
    (l.dropWhile Char.isDigit).dropWhile (fun c => c = '.' || c = '-' || c = ')' || pyIsSpace c)

/-- Scan for the closing character `t`, returning the suffix after it;
`.` in the non-greedy group cannot cross a newline. -/
def dropAfter (t : Char) : List Char → Option (List Char)
  | [] => none
  | c :: rest => if c = t then some rest else if c = '\n' then none else dropAfter t rest

/-- `re.sub(r"\(.*?\)|\[.*?\]", "", cleaned)`: left-to-right scan that
deletes every parenthesized or bracketed group (shortest match); an
opener with no closer is kept literally.  `fuel` bounds the recursion;
any value above the input length is exact. -/
def stripAnnotAux : Nat → List Char → List Char
  | 0, l => l
  | _, [] => []
  | fuel + 1, c :: rest =>
    if c = '(' then
      match dropAfter ')' rest with
      | some rest2 => stripAnnotAux fuel rest2
      | none => c :: stripAnnotAux fuel rest
    else if c = '[' then
      match dropAfter ']' rest with
      | some rest2 => stripAnnotAux fuel rest2
      | none => c :: stripAnnotAux fuel rest
    else
      c :: stripAnnotAux fuel rest

def stripAnnot (l : List Char) : List Char := stripAnnotAux (l.length + 1) l

/-- The cleaning applied to one stripped line (src lines 107-109):
enumeration marker, then annotations, then
`.strip('"').strip("'").strip()`. -/
def cleanLine (l : List Char) : List Char :=
  stripBoth pyIsSpace
    (stripBoth (fun c => c = '\'')
      (stripBoth (fun c => c = '"') (stripAnnot (stripEnum l))))

/-- Python `result.split("\n")`. -/
def splitNl : List Char → List (List Char)
  | [] => [[]]
  | c :: rest =>
    if c = '\n' then [] :: splitNl rest
    else
      match splitNl rest with
      | [] => [[c]]
      | g :: gs => (c :: g) :: gs

/-- The parsing loop of lines 104-109: strip each line, skip blank
lines, clean the rest and append the cleaned line *unconditionally*. -/
def parse_model_lines : List (List Char) → List (List Char)
  | [] => []
  | line :: rest =>
    let l := stripBoth pyIsSpace line
    if l.isEmpty then parse_model_lines rest
    else cleanLine l :: parse_model_lines rest

/-- The keyword list built from a model response by
`expand_keywords_mistral`. -/
def expand_parse_keywords (response : String) : List String :=
  (parse_model_lines (splitNl response.data)).map (fun l => ⟨l⟩)

theorem parse_model_lines_eq (lines : List (List Char)) :
    parse_model_lines lines =
      ((lines.map (stripBoth pyIsSpace)).filter (fun l => !l.isEmpty)).map cleanLine := by
  induction lines with
  | nil => rfl
  | cons line rest ih =>
    simp only [parse_model_lines, List.map_cons, List.filter_cons]
    cases hl : (stripBoth pyIsSpace line).isEmpty with
    | true => simp [hl, ih]
    | false => simp [hl, ih]

/-- C2 counterexample: the loop body appends the cleaned line without
re-checking non-emptiness, so a non-blank line that is nothing but an
annotation — here `"(note)"` — cleans to the empty string and the empty
string is appended to the keyword list. -/
theorem c2_empty_keyword_counterexample :
    expand_parse_keywords "1. #IndiaTrade (hashtag)\n(note)" = ["#IndiaTrade", ""] ∧
    "" ∈ expand_parse_keywords "1. #IndiaTrade (hashtag)\n(note)" := by
  refine ⟨by decide, ?_⟩
  rw [(by decide : expand_parse_keywords "1. #IndiaTrade (hashtag)\n(note)" = ["#IndiaTrade", ""])]
  decide

/-- C2 (amended): for every multi-line model response, the parsed
keyword list is exactly the image of the cleaning function over the
stripped non-blank lines — each non-blank line is cleaned (enumeration
marker, parenthesized and bracketed annotations, surrounding quotes
stripped, whitespace trimmed) and appended *unconditionally*, so the
list may contain empty strings when a non-blank line cleans to empty;
the raw line `"1. #IndiaTrade (hashtag)"` yields the cleaned token
`"#IndiaTrade"`. -/
theorem c2_parse_cleaning (response : String) :
    expand_parse_keywords response =
      ((((splitNl response.data).map (stripBoth pyIsSpace)).filter
          (fun l => !l.isEmpty)).map cleanLine).map (fun l => (⟨l⟩ : String)) ∧
    (⟨cleanLine "1. #IndiaTrade (hashtag)".data⟩ : String) = "#IndiaTrade" ∧
    expand_parse_keywords "1. #IndiaTrade (hashtag)\n(note)" = ["#IndiaTrade", ""] := by
  refine ⟨?_, by decide, by decide⟩
  rw [expand_parse_keywords, parse_model_lines_eq]

/-! ### Pipeline orchestrator (`agent_pipeline`, src lines 126-147) -/

theorem findAllAux_ne_nil (fuel : Nat) :
    ∀ (l : List Char) (pw : Bool) (m : List Char), m ∈ findAllAux fuel l pw → m ≠ [] := by
  induction fuel with
  | zero =>
    intro l pw m hm
    simp [findAllAux] at hm
  | succ f ih =>
    intro l pw m hm
    cases l with
    | nil => simp [findAllAux] at hm
    | cons c rest =>
      rw [findAllAux] at hm
      by_cases hb : (!pw && c.isUpper) = true
      · rw [if_pos hb] at hm
        split at hm
        · exact ih rest (isWordChar c) m hm
        · split at hm
          · rcases List.mem_cons.mp hm with h1 | h1
            · subst h1; simp
            · exact ih _ _ m h1
          · exact ih rest (isWordChar c) m hm
      · rw [if_neg hb] at hm
        exact ih rest (isWordChar c) m hm

theorem findAllCap_ne_empty (s : String) : ∀ k ∈ findAllCap s, k ≠ "" := by
  intro k hk
  rw [findAllCap] at hk
  rcases List.mem_map.mp hk with ⟨m, hm, hkm⟩
  subst hkm
  intro hcontra
  have hnil : m = [] := congrArg String.data hcontra
  exact findAllAux_ne_nil _ _ _ m hm hnil

/-- The lookup adapter's outputs always satisfy: extracted keywords are
non-empty strings, and a non-empty keyword list comes with non-empty
content. -/
theorem fetch_keywords_invariant (api : ApiOutcome) :
    (∀ k ∈ (fetch_keywords_from_api api).1, k ≠ "") ∧
    ((fetch_keywords_from_api api).1 ≠ [] → (fetch_keywords_from_api api).2 ≠ "") := by
  cases api with
  | transportError => exact ⟨by simp [fetch_keywords_from_api], fun h => absurd rfl h⟩
  | notFound => exact ⟨by simp [fetch_keywords_from_api], fun h => absurd rfl h⟩
  | httpError => exact ⟨by simp [fetch_keywords_from_api], fun h => absurd rfl h⟩
  | ok news =>
    by_cases hn : news = ""
    · subst hn
      exact ⟨by simp [fetch_keywords_from_api], fun h => absurd rfl h⟩
    · constructor
      · intro k hk
        simp only [fetch_keywords_from_api, if_neg hn] at hk
        have hmem := ((dedupFirstAux_mem [] (findAllCap news) k).mp hk).1
        exact findAllCap_ne_empty news k hmem
      · intro _
        simp only [fetch_keywords_from_api, if_neg hn]
        exact hn

theorem joinSep_comma_ne_empty (kw : List String) (hne : kw ≠ [])
    (hk : ∀ k ∈ kw, k ≠ "") : joinSep ", " kw ≠ "" := by
  cases kw with
  | nil => exact absurd rfl hne
  | cons x rest =>
    cases rest with
    | nil => simpa [joinSep] using hk x (by simp)
    | cons y xs =>
      intro hcontra
      have hlen := congrArg String.length hcontra
      have h2 : (", " : String).length = 2 := rfl
      have h0 : ("" : String).length = 0 := rfl
      rw [joinSep] at hlen
      simp only [String.length_append, h2, h0] at hlen
      omega

theorem build_or_eq (kws : List String) :
    build_boolean_queries kws "OR" = some (.single (joinSep " OR " (kws.map quoteKw))) := by
  cases kws <;> rfl

/-- The `QueryResponse` pydantic model (src lines 25-27). -/
structure QueryResponse where
  keywords : List String
  boolean_query : String
deriving DecidableEq, Repr

/-- `agent_pipeline` (src lines 126-147), parameterized by the model
call `expand` (topic and context to keyword list, the parsing of
`expand_keywords_mistral` applied to whatever the model returned) and by
the lookup service's behaviour `api`.  The catch-all arm of the final
match is unreachable for mode `"OR"` (see `build_or_eq`); it stands for
the `str` coercion the pydantic model would apply. -/
def agent_pipeline (expand : String → String → List String) (topic : String)
    (api : ApiOutcome) : QueryResponse :=
  let fetched := fetch_keywords_from_api api
  let initial_keywords := fetched.1
  let news_content := fetched.2
  let refined_keywords :=
    if initial_keywords = [] ∧ news_content = "" then expand topic ""
    else expand topic
      (if joinSep ", " initial_keywords = "" then news_content
       else joinSep ", " initial_keywords)
  ⟨refined_keywords,
    match build_boolean_queries refined_keywords "OR" with
    | some (.single s) => s
    | _ => ""⟩

/-- The context selection of orchestrator step 2, written as the spec
states it: empty when the lookup yielded nothing, otherwise the ", "
join of the lookup keywords when that join is non-empty, otherwise the
raw news content. -/
def specContext (src_keywords : List String) (news_content : String) : String :=
  if src_keywords = [] ∧ news_content = "" then ""
  else if joinSep ", " src_keywords = "" then news_content
  else joinSep ", " src_keywords

/-- C6: for every expansion behaviour, topic and lookup-service
behaviour, the orchestrator's keyword list is the expansion called with
the spec's step-2 context (which, over the adapter's reachable outputs,
is empty exactly when the lookup returned an empty keyword list and
empty content, and otherwise is the comma-space join of the lookup
keywords when non-empty, else the raw news content), and the returned
boolean_query is the OR-mode composition of that expanded keyword
list. -/
theorem c6_pipeline_context (expand : String → String → List String) (topic : String)
    (api : ApiOutcome) :
    (agent_pipeline expand topic api).keywords =
      expand topic
        (specContext (fetch_keywords_from_api api).1 (fetch_keywords_from_api api).2) ∧
    build_boolean_queries (agent_pipeline expand topic api).keywords "OR" =
      some (.single (agent_pipeline expand topic api).boolean_query) ∧
    (specContext (fetch_keywords_from_api api).1 (fetch_keywords_from_api api).2 = "" ↔
      ((fetch_keywords_from_api api).1 = [] ∧ (fetch_keywords_from_api api).2 = "")) := by
  obtain ⟨hk, hn⟩ := fetch_keywords_invariant api
  refine ⟨?_, ?_, ?_⟩
  · simp only [agent_pipeline, specContext]
    by_cases h1 : (fetch_keywords_from_api api).1 = [] ∧ (fetch_keywords_from_api api).2 = ""
    · simp [h1]
    · by_cases h2 : joinSep ", " (fetch_keywords_from_api api).1 = ""
      · simp [h1, h2]
      · simp [h1, h2]
  · simp only [agent_pipeline]
    rw [build_or_eq]
  · constructor
    · intro h
      by_contra hno
      simp only [specContext, if_neg hno] at h
      by_cases hkw : (fetch_keywords_from_api api).1 = []
      · rw [hkw] at h
        simp only [joinSep, if_pos rfl] at h
        exact hno ⟨hkw, h⟩
      · have hj := joinSep_comma_ne_empty _ hkw hk
        rw [if_neg hj] at h
        exact hj h
    · rintro ⟨h1, h2⟩
      simp [specContext, h1, h2]

theorem c6_pipeline_context_witness :
    (agent_pipeline (fun _ c => [c]) "t" .notFound).keywords = [""] := by
  have h := (c6_pipeline_context (fun _ c => [c]) "t" .notFound).1
  rw [h]
  rfl
